import Mathlib

/-!
# Shallow embedding of the `CanvasEditor` core of praziella-source-code

This file embeds the canvas editing engine of `src/components/VideoEditor.tsx`
(the `CanvasEditor` component, lines 221-468): the pixel surface, the bounded
undo/redo history (`saveState`, `undo`, `redo`), the compositing operations
(`applyFilter`, `addImage`, the import listener), the drawing handlers
(`startDrawing`, `draw`, `stopDrawing`), the mount effect and its `resize`
listener.  JS arrays holding snapshots are modelled as Lean lists with the
most recent element LAST (`push` = `List.concat`, `pop` = `getLast?` plus
`dropLast`, `shift` = `tail`), matching the JS array operations used by the
source.  Host-platform behaviour (CSS filter parsing, image decoding, stroke
rasterisation) is passed in as explicit function parameters, since it is
external to the repository.
-/

set_option autoImplicit false

namespace Praziella

/-- One RGBA sample (red, green, blue, alpha), each a byte value. -/
abbrev RGBA := Nat × Nat × Nat × Nat

/-- Opaque white, the fill `#ffffff` used by the init effect and the eraser. -/
def whiteRGBA : RGBA := (255, 255, 255, 255)

/-- Transparent black, the value every pixel of a freshly (re)allocated HTML
canvas bitmap holds (in particular after assigning `canvas.width`/`height`). -/
def clearRGBA : RGBA := (0, 0, 0, 0)

/-- A pixel buffer as returned by `context.getImageData`: dimensions plus a
row-major list of RGBA samples. -/
structure ImageData where
  width : Nat
  height : Nat
  data : List RGBA
deriving DecidableEq

/-- A `width × height` buffer with every sample equal to `c`. -/
def blankImage (width height : Nat) (c : RGBA) : ImageData :=
  ⟨width, height, List.replicate (width * height) c⟩

/-- Read the sample at column `x`, row `y` (row-major layout). -/
def getPx (d : ImageData) (x y : Nat) : RGBA :=
  d.data.getD (y * d.width + x) clearRGBA

/-- Build a `width × height` buffer from a per-pixel function. -/
def mkImage (width height : Nat) (f : Nat → Nat → RGBA) : ImageData :=
  ⟨width, height, (List.range (width * height)).map (fun i => f (i % width) (i / width))⟩

/-- `context.putImageData(src, 0, 0)` on a canvas currently holding `target`:
samples of `src` overwrite the target at the same coordinates, clipped to the
target's extent; pixels of `target` outside `src`'s extent are untouched. -/
def putImageDataAt (target src : ImageData) : ImageData :=
  mkImage target.width target.height (fun x y =>
    if x < src.width && y < src.height then getPx src x y else getPx target x y)

/-- The tool identifiers of `src/types.ts` (`ToolType`). -/
inductive ToolType where
  | select
  | brush
  | eraser
  | hand
  | aiAdd
  | smartEdit
  | videoGen
  | videoTrim
  | videoText
  | videoAudio
deriving DecidableEq

/-- A pointer coordinate (`offsetX`, `offsetY`). -/
abbrev Point := ℚ × ℚ

/-- The state of the `CanvasEditor` component that the core operations touch:
whether the 2D context has been obtained (the source checks
`!context || !canvasRef.current`, and both are non-null exactly once the mount
effect has run, so they are modelled as one flag), the canvas bitmap, the two
history stacks, the drawing flag and current path, and the list of assistant
messages emitted so far via `onAssistantMessage` (the component's only other
observable output). -/
structure EditorState where
  context : Bool
  surface : ImageData
  historyStack : List ImageData
  redoStack : List ImageData
  isDrawing : Bool
  path : List Point
  messages : List String
deriving DecidableEq

/-- `MAX_HISTORY` (source line 252). -/
def MAX_HISTORY : Nat := 20

/-- `saveState` (source lines 254-265): guard on context/canvas, read the full
bitmap, push it onto the history stack, `shift` off the oldest entry when the
length exceeds `MAX_HISTORY`, and clear the redo stack. -/
def saveState (s : EditorState) : EditorState :=
  if !s.context then s
  else
    let data := s.surface
    let pushed := s.historyStack.concat data
    let hist := if MAX_HISTORY < pushed.length then pushed.tail else pushed
    { s with historyStack := hist, redoStack := [] }

/-- `undo` (source lines 268-281): no-op when the history stack is empty or
the context is missing; otherwise push the current bitmap onto the redo stack,
pop the previous snapshot off the history stack, write it to the canvas and
emit the assistant message. -/
def undo (s : EditorState) : EditorState :=
  if s.historyStack.length = 0 || !s.context then s
  else
    let currentData := s.surface
    let s1 := { s with redoStack := s.redoStack.concat currentData }
    match s1.historyStack.getLast? with
    | some previousData =>
        { s1 with
            historyStack := s1.historyStack.dropLast
            surface := previousData
            messages := s1.messages.concat "Undid last action." }
    | none => { s1 with historyStack := s1.historyStack.dropLast }

/-- `redo` (source lines 282-294): no-op when the redo stack is empty or the
context is missing; otherwise push the current bitmap onto the history stack
(note: without any capacity check), pop the next snapshot off the redo stack,
write it to the canvas and emit the assistant message. -/
def redo (s : EditorState) : EditorState :=
  if s.redoStack.length = 0 || !s.context then s
  else
    let currentData := s.surface
    let s1 := { s with historyStack := s.historyStack.concat currentData }
    match s1.redoStack.getLast? with
    | some nextData =>
        { s1 with
            redoStack := s1.redoStack.dropLast
            surface := nextData
            messages := s1.messages.concat "Redid action." }
    | none => { s1 with redoStack := s1.redoStack.dropLast }

/-- `applyFilter` (source lines 295-311): guard on context, then `saveState()`
(before any validation of the filter string), then draw the canvas onto itself
through `context.filter := filter`.  `cssValid`/`cssApply` model the host
filter pipeline, which is external to the repository: assigning a string that
does not parse as a CSS filter-function list to `context.filter` is ignored by
the platform (the value stays `"none"`), so the self-draw copies the pixels
unchanged; a recognised filter applies the platform transform.  The assistant
message is emitted in either case. -/
def applyFilter (cssApply : String → ImageData → ImageData) (cssValid : String → Bool)
    (s : EditorState) (filter : String) : EditorState :=
  if !s.context then s
  else
    let s1 := saveState s
    let filtered := if cssValid filter then cssApply filter s1.surface else s1.surface
    { s1 with surface := filtered, messages := s1.messages.concat "Filter applied!" }

/-- The placement rectangle computed by `addImage` (source lines 318-323):
uniform scale `min((W * 0.5) / iw, (H * 0.5) / ih)`, drawn size
`(iw * scale, ih * scale)`, origin `((W - w) / 2, (H - h) / 2)`.  Returned as
`(x, (y, (w, h)))`. -/
def centeredScaledRect (W H iw ih : ℚ) : ℚ × ℚ × ℚ × ℚ :=
  let scale := min (W * (1 / 2) / iw) (H * (1 / 2) / ih)
  let w := iw * scale
  let h := ih * scale
  ((W - w) / 2, ((H - h) / 2, (w, h)))

/-- `addImage` (source lines 312-329): guard on context, then `saveState()`
(before the image is decoded), then load the data URL into an `Image`; the
`onload` callback computes the centered, half-size-bounded placement and draws
the image there.  `decode` models the host image decoder (`none` = the data
URL is not a decodable image, in which case `onload` never fires and nothing
further happens); `drawAt` models `context.drawImage(img, x, y, w, h)`. -/
def addImage (decode : String → Option ImageData)
    (drawAt : ImageData → ℚ × ℚ × ℚ × ℚ → ImageData → ImageData)
    (s : EditorState) (dataUrl : String) : EditorState :=
  if !s.context then s
  else
    let s1 := saveState s
    match decode dataUrl with
    | none => s1
    | some img =>
        let r := centeredScaledRect (s1.surface.width : ℚ) (s1.surface.height : ℚ)
          (img.width : ℚ) (img.height : ℚ)
        { s1 with
            surface := drawAt img r s1.surface
            messages := s1.messages.concat "Element added to canvas." }

/-- The `praziella-import-image` listener (source lines 374-412): decode the
selected file; on load, guard on context, `saveState()`, compute the
fit-to-canvas placement (source lines 384-394), fill the canvas white, draw the
image there and emit the assistant message.  `decode` and `drawAt` model the
host decoder and `context.drawImage`, as in `addImage`.  This effect lists
`context` in its dependency array, so it always sees the committed context. -/
def handleImport (decode : String → Option ImageData)
    (drawAt : ImageData → ℚ × ℚ × ℚ × ℚ → ImageData → ImageData)
    (s : EditorState) (dataUrl : String) : EditorState :=
  match decode dataUrl with
  | none => s
  | some img =>
      if !s.context then s
      else
        let s1 := saveState s
        let aspect := (img.width : ℚ) / (img.height : ℚ)
        let drawWidth0 := (s1.surface.width : ℚ)
        let drawHeight0 := drawWidth0 / aspect
        let tall := (s1.surface.height : ℚ) < drawHeight0
        let drawHeight := if tall then (s1.surface.height : ℚ) else drawHeight0
        let drawWidth := if tall then drawHeight * aspect else drawWidth0
        let x := (drawWidth0 - drawWidth) / 2
        let y := ((s1.surface.height : ℚ) - drawHeight) / 2
        let whited := blankImage s1.surface.width s1.surface.height whiteRGBA
        { s1 with
            surface := drawAt img (x, (y, (drawWidth, drawHeight))) whited
            messages := s1.messages.concat "Image loaded! Ready to edit." }

/-- The value of the `context` React state captured by the closures created
inside the mount effect (source lines 336-371).  That effect has an empty
dependency array, so it runs exactly once, during the first render, when
`context` is still `null`: `setContext(ctx)` only commits on the following
render, after the effect body has already run and after the `resize` listener
has been registered.  Hence both the effect's own `saveState()` call and the
registered `handleResize` listener permanently observe `context = null`. -/
def mountCapturedContext : Bool := false

/-- The `handleResize` listener (source lines 356-366) as registered by the
mount effect: if the captured `context` (see `mountCapturedContext`) and the
canvas exist, read the current bitmap, assign `canvas.width`/`height` from the
element's offset size (which reallocates the bitmap with every sample
transparent black, per the HTML canvas specification) and put the saved bitmap
back at the origin, clipped. -/
def handleResize (capturedCtx : Bool) (offsetW offsetH : Nat) (s : EditorState) : EditorState :=
  if capturedCtx then
    let currentData := s.surface
    let reallocated := blankImage offsetW offsetH clearRGBA
    { s with surface := putImageDataAt reallocated currentData }
  else s

/-- The mount effect (source lines 336-354): size the canvas, obtain the 2D
context, fill the bitmap opaque white, and call `saveState()`.  The
`saveState` invoked here is the callback created during the first render,
whose captured `context` state is still `null` (see `mountCapturedContext`),
so its guard fails; the committed state after the effect nevertheless has a
live context.  The result is the editor state in which the component hands
control to the user. -/
def initEditor (w h : Nat) : EditorState :=
  let s0 : EditorState :=
    { context := mountCapturedContext
      surface := blankImage w h whiteRGBA
      historyStack := []
      redoStack := []
      isDrawing := false
      path := []
      messages := [] }
  let s1 := saveState s0
  { s1 with context := true }

/-- `startDrawing` (source lines 415-423): guard on context; tools
select/hand/ai-add/smart-edit ignore pointer input entirely; otherwise
`saveState()`, begin a path at the pointer position and set the drawing flag. -/
def startDrawing (s : EditorState) (activeTool : ToolType) (p : Point) : EditorState :=
  if !s.context then s
  else if activeTool = ToolType.select ∨ activeTool = ToolType.hand ∨
      activeTool = ToolType.aiAdd ∨ activeTool = ToolType.smartEdit then s
  else
    let s1 := saveState s
    { s1 with path := [p], isDrawing := true }

/-- `draw` (source lines 425-440): ignored unless currently drawing with a
live context; tools select/hand/ai-add/smart-edit are ignored; otherwise the
stroke colour is white for the eraser and the brush colour otherwise, the path
is extended to the pointer position and `context.stroke()` rasterises the
current path onto the bitmap.  `strokePath` models the host rasteriser
(colour, line width, path, bitmap in; bitmap out). -/
def draw (strokePath : String → Nat → List Point → ImageData → ImageData)
    (s : EditorState) (activeTool : ToolType) (brushSize : Nat) (brushColor : String)
    (p : Point) : EditorState :=
  if !s.isDrawing || !s.context then s
  else if activeTool = ToolType.select ∨ activeTool = ToolType.hand ∨
      activeTool = ToolType.aiAdd ∨ activeTool = ToolType.smartEdit then s
  else
    let color := if activeTool = ToolType.eraser then "#ffffff" else brushColor
    let newPath := s.path.concat p
    { s with path := newPath, surface := strokePath color brushSize newPath s.surface }

/-- `stopDrawing` (source lines 442-446): close the path and clear the drawing
flag; ignored when not drawing or without a context. -/
def stopDrawing (s : EditorState) : EditorState :=
  if !s.context || !s.isDrawing then s
  else { s with isDrawing := false }

/-- Iterated checkpoints: for each buffer in turn, mutate the surface to that
buffer and call `saveState` — the shape of every mutating user action
(`saveState` immediately before the mutation leaves the pushed snapshot equal
to the pre-mutation surface; here each list entry is the surface current at
its checkpoint). -/
def checkpoints : EditorState → List ImageData → EditorState
  | s, [] => s
  | s, img :: rest => checkpoints (saveState { s with surface := img }) rest

/-- The editor states reachable by the program: the state after mount, closed
under every operation the component can perform (the imperative handle's
`undo`/`redo`/`applyFilter`/`addImage`, the import listener, the pointer
handlers and the registered resize listener, with arbitrary host-platform
behaviour for the external parameters). -/
inductive Reachable : EditorState → Prop where
  | mount (w h : Nat) : Reachable (initEditor w h)
  | save {s : EditorState} : Reachable s → Reachable (saveState s)
  | undoStep {s : EditorState} : Reachable s → Reachable (undo s)
  | redoStep {s : EditorState} : Reachable s → Reachable (redo s)
  | filterStep {s : EditorState} (cssApply : String → ImageData → ImageData)
      (cssValid : String → Bool) (f : String) :
      Reachable s → Reachable (applyFilter cssApply cssValid s f)
  | imageStep {s : EditorState} (decode : String → Option ImageData)
      (drawAt : ImageData → ℚ × ℚ × ℚ × ℚ → ImageData → ImageData) (d : String) :
      Reachable s → Reachable (addImage decode drawAt s d)
  | importStep {s : EditorState} (decode : String → Option ImageData)
      (drawAt : ImageData → ℚ × ℚ × ℚ × ℚ → ImageData → ImageData) (d : String) :
      Reachable s → Reachable (handleImport decode drawAt s d)
  | strokeStart {s : EditorState} (tool : ToolType) (p : Point) :
      Reachable s → Reachable (startDrawing s tool p)
  | strokeMove {s : EditorState} (strokePath : String → Nat → List Point → ImageData → ImageData)
      (tool : ToolType) (bs : Nat) (bc : String) (p : Point) :
      Reachable s → Reachable (draw strokePath s tool bs bc p)
  | strokeEnd {s : EditorState} : Reachable s → Reachable (stopDrawing s)
  | resizeStep {s : EditorState} (w h : Nat) :
      Reachable s → Reachable (handleResize mountCapturedContext w h s)

/-! ## Basic lemmas about the history operations -/

theorem saveState_of_not_context {s : EditorState} (h : s.context = false) :
    saveState s = s := by
  simp [saveState, h]

theorem saveState_context (s : EditorState) : (saveState s).context = s.context := by
  by_cases hc : s.context = true <;> simp [saveState, hc]

theorem saveState_surface (s : EditorState) : (saveState s).surface = s.surface := by
  by_cases hc : s.context = true <;> simp [saveState, hc]

theorem saveState_redoStack {s : EditorState} (h : s.context = true) :
    (saveState s).redoStack = [] := by
  simp [saveState, h]

theorem saveState_historyStack {s : EditorState} (h : s.context = true) :
    (saveState s).historyStack =
      if MAX_HISTORY < s.historyStack.length + 1 then
        (s.historyStack.concat s.surface).tail
      else s.historyStack.concat s.surface := by
  simp [saveState, h]

theorem saveState_hist_getLast {s : EditorState} (h : s.context = true) :
    (saveState s).historyStack.getLast? = some s.surface := by
  rw [saveState_historyStack h]
  split
  · next hlt =>
      have hne : s.historyStack ≠ [] := by
        intro he
        rw [he] at hlt
        simp [MAX_HISTORY] at hlt
      rw [List.concat_eq_append, List.tail_append_singleton_of_ne_nil hne,
        List.getLast?_concat]
  · rw [List.concat_eq_append, List.getLast?_concat]

theorem saveState_hist_ne_nil {s : EditorState} (h : s.context = true) :
    (saveState s).historyStack ≠ [] := by
  intro he
  have hl := saveState_hist_getLast h
  rw [he] at hl
  simp at hl

theorem undo_of_empty {s : EditorState} (h : s.historyStack = []) : undo s = s := by
  simp [undo, h]

theorem undo_of_not_context {s : EditorState} (h : s.context = false) : undo s = s := by
  simp [undo, h]

theorem undo_eq {s : EditorState} {prev : ImageData}
    (hc : s.context = true) (hlast : s.historyStack.getLast? = some prev) :
    undo s =
      { s with
          historyStack := s.historyStack.dropLast
          redoStack := s.redoStack.concat s.surface
          surface := prev
          messages := s.messages.concat "Undid last action." } := by
  have hne : s.historyStack ≠ [] := by
    intro he
    rw [he] at hlast
    simp at hlast
  have hlen : ¬ s.historyStack.length = 0 := by
    simpa using hne
  simp only [undo, hc, hlen, Bool.not_true, Bool.or_false, decide_eq_true_eq,
    if_neg hlen, hlast]
  simp

theorem redo_of_empty {s : EditorState} (h : s.redoStack = []) : redo s = s := by
  simp [redo, h]

theorem redo_of_not_context {s : EditorState} (h : s.context = false) : redo s = s := by
  simp [redo, h]

theorem redo_eq {s : EditorState} {next : ImageData}
    (hc : s.context = true) (hlast : s.redoStack.getLast? = some next) :
    redo s =
      { s with
          historyStack := s.historyStack.concat s.surface
          redoStack := s.redoStack.dropLast
          surface := next
          messages := s.messages.concat "Redid action." } := by
  have hne : s.redoStack ≠ [] := by
    intro he
    rw [he] at hlast
    simp at hlast
  have hlen : ¬ s.redoStack.length = 0 := by
    simpa using hne
  simp only [redo, hc, hlen, Bool.not_true, Bool.or_false, decide_eq_true_eq,
    if_neg hlen, hlast]
  simp

/-! ## The combined history-size invariant -/

/-- Combined size of the two snapshot stacks. -/
def stackSum (s : EditorState) : Nat :=
  s.historyStack.length + s.redoStack.length

theorem saveState_stackSum {s : EditorState} (h : stackSum s ≤ MAX_HISTORY) :
    stackSum (saveState s) ≤ MAX_HISTORY := by
  by_cases hc : s.context = true
  · unfold stackSum at h ⊢
    rw [saveState_historyStack hc, saveState_redoStack hc]
    split <;> simp <;> omega
  · rw [saveState_of_not_context (by simpa using hc)]
    exact h

theorem undo_stackSum {s : EditorState} (h : stackSum s ≤ MAX_HISTORY) :
    stackSum (undo s) ≤ MAX_HISTORY := by
  by_cases hc : s.context = true
  · cases hlast : s.historyStack.getLast? with
    | none =>
        rw [undo_of_empty (List.getLast?_eq_none_iff.mp hlast)]
        exact h
    | some prev =>
        have hne : s.historyStack ≠ [] := by
          intro he
          rw [he] at hlast
          simp at hlast
        have hpos : 0 < s.historyStack.length := List.length_pos.mpr hne
        rw [undo_eq hc hlast]
        unfold stackSum at h ⊢
        simp
        omega
  · rw [undo_of_not_context (by simpa using hc)]
    exact h

theorem redo_stackSum {s : EditorState} (h : stackSum s ≤ MAX_HISTORY) :
    stackSum (redo s) ≤ MAX_HISTORY := by
  by_cases hc : s.context = true
  · cases hlast : s.redoStack.getLast? with
    | none =>
        rw [redo_of_empty (List.getLast?_eq_none_iff.mp hlast)]
        exact h
    | some nextData =>
        have hne : s.redoStack ≠ [] := by
          intro he
          rw [he] at hlast
          simp at hlast
        have hpos : 0 < s.redoStack.length := List.length_pos.mpr hne
        rw [redo_eq hc hlast]
        unfold stackSum at h ⊢
        simp
        omega
  · rw [redo_of_not_context (by simpa using hc)]
    exact h

theorem applyFilter_stackSum (cssApply : String → ImageData → ImageData)
    (cssValid : String → Bool) {s : EditorState} (f : String)
    (h : stackSum s ≤ MAX_HISTORY) :
    stackSum (applyFilter cssApply cssValid s f) ≤ MAX_HISTORY := by
  by_cases hc : s.context = true
  · have hs := saveState_stackSum h
    unfold stackSum at hs ⊢
    simp only [applyFilter, hc, Bool.not_true, Bool.false_eq_true, if_false]
    exact hs
  · have hc' : s.context = false := by simpa using hc
    simpa [applyFilter, hc'] using h

theorem addImage_stackSum (decode : String → Option ImageData)
    (drawAt : ImageData → ℚ × ℚ × ℚ × ℚ → ImageData → ImageData)
    {s : EditorState} (d : String) (h : stackSum s ≤ MAX_HISTORY) :
    stackSum (addImage decode drawAt s d) ≤ MAX_HISTORY := by
  by_cases hc : s.context = true
  · have hs := saveState_stackSum h
    unfold stackSum at hs ⊢
    simp only [addImage, hc, Bool.not_true, Bool.false_eq_true, if_false]
    cases decode d <;> simp <;> exact hs
  · have hc' : s.context = false := by simpa using hc
    simpa [addImage, hc'] using h

theorem handleImport_stackSum (decode : String → Option ImageData)
    (drawAt : ImageData → ℚ × ℚ × ℚ × ℚ → ImageData → ImageData)
    {s : EditorState} (d : String) (h : stackSum s ≤ MAX_HISTORY) :
    stackSum (handleImport decode drawAt s d) ≤ MAX_HISTORY := by
  unfold handleImport
  cases decode d with
  | none => exact h
  | some img =>
      by_cases hc : s.context = true
      · have hs := saveState_stackSum h
        unfold stackSum at hs ⊢
        simp only [hc, Bool.not_true, Bool.false_eq_true, if_false]
        exact hs
      · have hc' : s.context = false := by simpa using hc
        simpa [hc'] using h

theorem startDrawing_stackSum {s : EditorState} (tool : ToolType) (p : Point)
    (h : stackSum s ≤ MAX_HISTORY) :
    stackSum (startDrawing s tool p) ≤ MAX_HISTORY := by
  unfold startDrawing
  split
  · exact h
  · split
    · exact h
    · have hs := saveState_stackSum h
      unfold stackSum at hs ⊢
      simpa using hs

theorem draw_stackSum (strokePath : String → Nat → List Point → ImageData → ImageData)
    {s : EditorState} (tool : ToolType) (bs : Nat) (bc : String) (p : Point)
    (h : stackSum s ≤ MAX_HISTORY) :
    stackSum (draw strokePath s tool bs bc p) ≤ MAX_HISTORY := by
  unfold draw
  split
  · exact h
  · split
    · exact h
    · unfold stackSum at h ⊢
      simpa using h

theorem stopDrawing_stackSum {s : EditorState} (h : stackSum s ≤ MAX_HISTORY) :
    stackSum (stopDrawing s) ≤ MAX_HISTORY := by
  unfold stopDrawing
  split
  · exact h
  · unfold stackSum at h ⊢
    simpa using h

theorem handleResize_mount_noop (w h : Nat) (s : EditorState) :
    handleResize mountCapturedContext w h s = s := by
  simp [handleResize, mountCapturedContext]

theorem initEditor_eq (w h : Nat) :
    initEditor w h =
      { context := true
        surface := blankImage w h whiteRGBA
        historyStack := []
        redoStack := []
        isDrawing := false
        path := []
        messages := [] } := by
  simp [initEditor, mountCapturedContext, saveState]

/-- Every reachable editor state keeps the combined size of the two snapshot
stacks at or below `MAX_HISTORY`. -/
theorem reachable_stackSum {s : EditorState} (hs : Reachable s) :
    stackSum s ≤ MAX_HISTORY := by
  induction hs with
  | mount w h => simp [initEditor_eq, stackSum, MAX_HISTORY]
  | save _ ih => exact saveState_stackSum ih
  | undoStep _ ih => exact undo_stackSum ih
  | redoStep _ ih => exact redo_stackSum ih
  | filterStep cssApply cssValid f _ ih => exact applyFilter_stackSum cssApply cssValid f ih
  | imageStep decode drawAt d _ ih => exact addImage_stackSum decode drawAt d ih
  | importStep decode drawAt d _ ih => exact handleImport_stackSum decode drawAt d ih
  | strokeStart tool p _ ih => exact startDrawing_stackSum tool p ih
  | strokeMove strokePath tool bs bc p _ ih => exact draw_stackSum strokePath tool bs bc p ih
  | strokeEnd _ ih => exact stopDrawing_stackSum ih
  | resizeStep w h hr ih => rw [handleResize_mount_noop]; exact ih

/-! ## Claim theorems -/

/-- General undo/redo round trip: with a live context and `prev` on top of the
history stack, `undo` restores `prev` and an immediately following `redo`
restores the surface present before the `undo`. -/
theorem undo_redo_surface {s : EditorState} {prev : ImageData}
    (hc : s.context = true) (hlast : s.historyStack.getLast? = some prev) :
    (undo s).surface = prev ∧ (redo (undo s)).surface = s.surface := by
  rw [undo_eq hc hlast]
  constructor
  · rfl
  · have hc2 :
        ({ s with
            historyStack := s.historyStack.dropLast
            redoStack := s.redoStack.concat s.surface
            surface := prev
            messages := s.messages.concat "Undid last action." } : EditorState).context =
          true := hc
    have hl2 :
        ({ s with
            historyStack := s.historyStack.dropLast
            redoStack := s.redoStack.concat s.surface
            surface := prev
            messages := s.messages.concat "Undid last action." } : EditorState).redoStack.getLast? =
          some s.surface := by
      simp
    rw [redo_eq hc2 hl2]

/-- C1: undo/redo is a lossless round trip.  For any initialized state `s`,
after a checkpoint (`saveState`) of the surface `S0 = s.surface` followed by a
mutation of the surface to `S1`, `undo` restores the surface exactly to `S0`,
and an immediately following `redo` (no intervening checkpoint) restores it
exactly to `S1`. -/
theorem C1_undo_redo_round_trip (s : EditorState) (S1 : ImageData) (hctx : s.context = true) :
    (undo { saveState s with surface := S1 }).surface = s.surface ∧
    (redo (undo { saveState s with surface := S1 })).surface = S1 := by
  have hc1 : ({ saveState s with surface := S1 } : EditorState).context = true := by
    simp [saveState_context, hctx]
  have hl1 : ({ saveState s with surface := S1 } : EditorState).historyStack.getLast? =
      some s.surface := by
    simpa using saveState_hist_getLast hctx
  simpa using undo_redo_surface hc1 hl1

/-- Witness for C1 at the freshly mounted 1×1 editor with a transparent-black
mutated surface. -/
theorem C1_undo_redo_round_trip_witness :
    (undo { saveState (initEditor 1 1) with surface := blankImage 1 1 clearRGBA }).surface =
        (initEditor 1 1).surface ∧
    (redo (undo { saveState (initEditor 1 1) with
        surface := blankImage 1 1 clearRGBA })).surface = blankImage 1 1 clearRGBA :=
  C1_undo_redo_round_trip (initEditor 1 1) (blankImage 1 1 clearRGBA) (by decide)

/-- C2: in every reachable state, a `redo` call leaves the undo stack at or
below `MAX_HISTORY` entries; and whenever `redo` acts (live context, non-empty
redo stack) it pushes the current surface on top of the undo stack with every
existing entry retained (the cap cannot be hit here, because reachable states
satisfy `stackSum s ≤ MAX_HISTORY`, so nothing is ever evicted by `redo`). -/
theorem C2_redo_respects_history_cap {s : EditorState} (hs : Reachable s) :
    (redo s).historyStack.length ≤ MAX_HISTORY ∧
    (s.context = true → s.redoStack ≠ [] →
      (redo s).historyStack = s.historyStack.concat s.surface) := by
  have hsum := reachable_stackSum hs
  unfold stackSum at hsum
  constructor
  · by_cases hc : s.context = true
    · cases hlast : s.redoStack.getLast? with
      | none =>
          rw [redo_of_empty (List.getLast?_eq_none_iff.mp hlast)]
          omega
      | some nextData =>
          have hne : s.redoStack ≠ [] := by
            intro he
            rw [he] at hlast
            simp at hlast
          have hpos : 0 < s.redoStack.length := List.length_pos.mpr hne
          rw [redo_eq hc hlast]
          simp
          omega
    · rw [redo_of_not_context (by simpa using hc)]
      omega
  · intro hc hne
    cases hlast : s.redoStack.getLast? with
    | none => exact absurd (List.getLast?_eq_none_iff.mp hlast) hne
    | some nextData => rw [redo_eq hc hlast]

/-- Witness for C2 at the freshly mounted 1×1 editor. -/
theorem C2_redo_respects_history_cap_witness :
    (redo (initEditor 1 1)).historyStack.length ≤ MAX_HISTORY ∧
    ((initEditor 1 1).context = true → (initEditor 1 1).redoStack ≠ [] →
      (redo (initEditor 1 1)).historyStack =
        (initEditor 1 1).historyStack.concat (initEditor 1 1).surface) :=
  C2_redo_respects_history_cap (Reachable.mount 1 1)

/-- C5: `undo` on a state whose undo stack is empty is a complete no-op
(surface, both stacks and emitted messages unchanged), and `redo` on a state
whose redo stack is empty likewise; both are total functions, so neither
throws. -/
theorem C5_empty_stack_noop (s t : EditorState)
    (hs : s.historyStack = []) (ht : t.redoStack = []) :
    undo s = s ∧ redo t = t :=
  ⟨undo_of_empty hs, redo_of_empty ht⟩

/-- Witness for C5 at the freshly mounted 1×1 editor (whose stacks are both
empty). -/
theorem C5_empty_stack_noop_witness :
    undo (initEditor 1 1) = initEditor 1 1 ∧ redo (initEditor 1 1) = initEditor 1 1 :=
  C5_empty_stack_noop (initEditor 1 1) (initEditor 1 1) (by decide) (by decide)

/-! ## C3: checkpoint postcondition and stabilization -/

/-- Closed form for iterated checkpoints: starting from a live context with at
most `MAX_HISTORY` stored snapshots, running one checkpoint per listed surface
leaves exactly the at-most-`MAX_HISTORY` most recent snapshots, in order. -/
theorem checkpoints_historyStack (imgs : List ImageData) : ∀ s : EditorState,
    s.context = true → s.historyStack.length ≤ MAX_HISTORY →
    (checkpoints s imgs).historyStack =
      (s.historyStack ++ imgs).drop (s.historyStack.length + imgs.length - MAX_HISTORY) := by
  induction imgs with
  | nil =>
      intro s hctx hlen
      have h0 : s.historyStack.length + List.length ([] : List ImageData) - MAX_HISTORY = 0 := by
        simp only [List.length_nil]
        omega
      rw [checkpoints, h0]
      simp
  | cons a rest ih =>
      intro s hctx hlen
      rw [checkpoints]
      have hc' : ({ s with surface := a } : EditorState).context = true := hctx
      have hcc : (saveState { s with surface := a }).context = true := by
        rw [saveState_context]
        exact hc'
      have hsave := saveState_historyStack hc'
      by_cases hcap : MAX_HISTORY < s.historyStack.length + 1
      · have hlen20 : s.historyStack.length = MAX_HISTORY := by omega
        have hne : s.historyStack ≠ [] := by
          intro he
          rw [he] at hlen20
          simp [MAX_HISTORY] at hlen20
        have hhist : (saveState { s with surface := a }).historyStack =
            s.historyStack.tail ++ [a] := by
          rw [hsave]
          simp only [if_pos hcap, List.concat_eq_append,
            List.tail_append_singleton_of_ne_nil hne]
        have hpos : 0 < s.historyStack.length := List.length_pos.mpr hne
        have hlen' : (saveState { s with surface := a }).historyStack.length ≤ MAX_HISTORY := by
          rw [hhist, List.length_append, List.length_tail, List.length_singleton]
          omega
        rw [ih _ hcc hlen', hhist]
        obtain ⟨hd, tl, htl⟩ := List.exists_cons_of_ne_nil hne
        have hlentl : tl.length + 1 = MAX_HISTORY := by
          rw [htl] at hlen20
          simpa using hlen20
        rw [htl]
        simp only [List.tail_cons]
        have hidx1 : (tl ++ [a]).length + rest.length - MAX_HISTORY = rest.length := by
          rw [List.length_append, List.length_singleton]
          omega
        have hidx2 : (hd :: tl).length + (a :: rest).length - MAX_HISTORY = rest.length + 1 := by
          rw [List.length_cons, List.length_cons]
          omega
        rw [hidx1, hidx2, List.cons_append, List.drop_succ_cons, List.append_assoc,
          List.singleton_append]
      · have hhist : (saveState { s with surface := a }).historyStack =
            s.historyStack ++ [a] := by
          rw [hsave]
          simp only [if_neg hcap, List.concat_eq_append]
        have hlen' : (saveState { s with surface := a }).historyStack.length ≤ MAX_HISTORY := by
          rw [hhist, List.length_append, List.length_singleton]
          omega
        rw [ih _ hcc hlen', hhist]
        have hidx : (s.historyStack ++ [a]).length + rest.length - MAX_HISTORY =
            s.historyStack.length + (a :: rest).length - MAX_HISTORY := by
          rw [List.length_append, List.length_singleton, List.length_cons]
          omega
        rw [hidx, List.append_assoc, List.singleton_append]

/-- C3: the checkpoint postcondition.  With a live context: `saveState` pushes
the current surface onto the undo stack; when the stack already holds
`MAX_HISTORY` entries it evicts exactly the single oldest entry; it always
clears the redo stack; and iterating more than `MAX_HISTORY` checkpoints from
a stack within its bound leaves exactly the `MAX_HISTORY` most recent
snapshots, in order. -/
theorem C3_saveState_postcondition (s : EditorState) (imgs : List ImageData)
    (hctx : s.context = true) (hlen : s.historyStack.length ≤ MAX_HISTORY)
    (himgs : MAX_HISTORY ≤ imgs.length) :
    (saveState s).redoStack = [] ∧
    (s.historyStack.length < MAX_HISTORY →
      (saveState s).historyStack = s.historyStack ++ [s.surface]) ∧
    (s.historyStack.length = MAX_HISTORY →
      (saveState s).historyStack = s.historyStack.tail ++ [s.surface]) ∧
    (checkpoints s imgs).historyStack = imgs.drop (imgs.length - MAX_HISTORY) ∧
    (checkpoints s imgs).historyStack.length = MAX_HISTORY := by
  refine ⟨saveState_redoStack hctx, ?_, ?_, ?_, ?_⟩
  · intro hlt
    rw [saveState_historyStack hctx]
    simp only [if_neg (by omega : ¬ MAX_HISTORY < s.historyStack.length + 1),
      List.concat_eq_append]
  · intro heq
    have hne : s.historyStack ≠ [] := by
      intro he
      rw [he] at heq
      simp [MAX_HISTORY] at heq
    rw [saveState_historyStack hctx]
    simp only [if_pos (by omega : MAX_HISTORY < s.historyStack.length + 1),
      List.concat_eq_append, List.tail_append_singleton_of_ne_nil hne]
  · rw [checkpoints_historyStack imgs s hctx hlen]
    have : s.historyStack.length + imgs.length - MAX_HISTORY =
        s.historyStack.length + (imgs.length - MAX_HISTORY) := by omega
    rw [this, List.drop_append]
  · rw [checkpoints_historyStack imgs s hctx hlen]
    simp only [List.length_drop, List.length_append]
    omega

/-- Witness for C3: the freshly mounted 1×1 editor (empty undo stack, live
context) and twenty checkpoints of the all-white 1×1 buffer. -/
theorem C3_saveState_postcondition_witness :
    (saveState (initEditor 1 1)).redoStack = [] ∧
    ((initEditor 1 1).historyStack.length < MAX_HISTORY →
      (saveState (initEditor 1 1)).historyStack =
        (initEditor 1 1).historyStack ++ [(initEditor 1 1).surface]) ∧
    ((initEditor 1 1).historyStack.length = MAX_HISTORY →
      (saveState (initEditor 1 1)).historyStack =
        (initEditor 1 1).historyStack.tail ++ [(initEditor 1 1).surface]) ∧
    (checkpoints (initEditor 1 1)
        (List.replicate MAX_HISTORY (blankImage 1 1 clearRGBA))).historyStack =
      (List.replicate MAX_HISTORY (blankImage 1 1 clearRGBA)).drop
        ((List.replicate MAX_HISTORY (blankImage 1 1 clearRGBA)).length - MAX_HISTORY) ∧
    (checkpoints (initEditor 1 1)
        (List.replicate MAX_HISTORY (blankImage 1 1 clearRGBA))).historyStack.length =
      MAX_HISTORY :=
  C3_saveState_postcondition (initEditor 1 1)
    (List.replicate MAX_HISTORY (blankImage 1 1 clearRGBA))
    (by decide) (by decide) (by decide)

/-! ## C4 and C9: failure behaviour of the mutating operations -/

theorem saveState_messages (s : EditorState) : (saveState s).messages = s.messages := by
  by_cases hc : s.context = true <;> simp [saveState, hc]

/-- A host filter pipeline that recognises no filter string (only the
invalid-filter case is exercised by the claims proved with it). -/
def rejectAllFilters : String → Bool := fun _ => false

/-- An identity stand-in for the host pixel transform; the properties proved
with it do not depend on the transform. -/
def idTransform : String → ImageData → ImageData := fun _ img => img

/-- A host decoder for which every data URL fails to decode. -/
def failDecode : String → Option ImageData := fun _ => none

/-- An identity stand-in for `context.drawImage`; the properties proved with
it do not depend on the draw. -/
def idDraw : ImageData → ℚ × ℚ × ℚ × ℚ → ImageData → ImageData := fun _ _ t => t

/-- C4 counterexample: on the freshly mounted 1×1 editor (whose undo stack is
empty), `applyFilter` with an unrecognised filter string and `addImage` with
undecodable image data each leave the undo stack DIFFERENT from before the
call — the checkpoint is pushed before any validation — refuting the claimed
atomicity of failing mutating operations. -/
theorem C4_counterexample :
    ¬ ((applyFilter idTransform rejectAllFilters (initEditor 1 1) "bogus").historyStack =
          (initEditor 1 1).historyStack ∧
        (addImage failDecode idDraw (initEditor 1 1) "nope").historyStack =
          (initEditor 1 1).historyStack) := by
  decide

/-- C4 (amended): with a live context, `applyFilter` and `addImage` push a
checkpoint of the pre-call surface and clear the redo stack unconditionally,
BEFORE any validation.  When the filter string is unrecognised or the image
data is undecodable, the surface pixels are unchanged (and the failed
`addImage` emits no message), but the dangling checkpoint remains and no
`UnknownFilter`/`InvalidImageData` failure is reported. -/
theorem C4_checkpoint_before_validation
    (cssApply : String → ImageData → ImageData) (cssValid : String → Bool)
    (decode : String → Option ImageData)
    (drawAt : ImageData → ℚ × ℚ × ℚ × ℚ → ImageData → ImageData)
    (s : EditorState) (f d : String)
    (hctx : s.context = true) (hf : cssValid f = false) (hd : decode d = none) :
    (applyFilter cssApply cssValid s f).surface = s.surface ∧
    (applyFilter cssApply cssValid s f).historyStack = (saveState s).historyStack ∧
    (applyFilter cssApply cssValid s f).historyStack.getLast? = some s.surface ∧
    (applyFilter cssApply cssValid s f).redoStack = [] ∧
    (applyFilter cssApply cssValid s f).messages = s.messages.concat "Filter applied!" ∧
    (addImage decode drawAt s d).surface = s.surface ∧
    (addImage decode drawAt s d).historyStack = (saveState s).historyStack ∧
    (addImage decode drawAt s d).historyStack.getLast? = some s.surface ∧
    (addImage decode drawAt s d).redoStack = [] ∧
    (addImage decode drawAt s d).messages = s.messages := by
  refine ⟨?_, ?_, ?_, ?_, ?_, ?_, ?_, ?_, ?_, ?_⟩ <;>
    simp [applyFilter, addImage, hctx, hf, hd, saveState_surface, saveState_messages,
      saveState_redoStack hctx, saveState_hist_getLast hctx]

/-- Witness for C4 (amended) at the freshly mounted 1×1 editor, with a filter
pipeline rejecting every string and a decoder failing on every input. -/
theorem C4_checkpoint_before_validation_witness :
    (applyFilter idTransform rejectAllFilters (initEditor 1 1) "bogus").surface =
        (initEditor 1 1).surface ∧
    (applyFilter idTransform rejectAllFilters (initEditor 1 1) "bogus").historyStack =
        (saveState (initEditor 1 1)).historyStack ∧
    (applyFilter idTransform rejectAllFilters (initEditor 1 1) "bogus").historyStack.getLast? =
        some (initEditor 1 1).surface ∧
    (applyFilter idTransform rejectAllFilters (initEditor 1 1) "bogus").redoStack = [] ∧
    (applyFilter idTransform rejectAllFilters (initEditor 1 1) "bogus").messages =
        (initEditor 1 1).messages.concat "Filter applied!" ∧
    (addImage failDecode idDraw (initEditor 1 1) "nope").surface = (initEditor 1 1).surface ∧
    (addImage failDecode idDraw (initEditor 1 1) "nope").historyStack =
        (saveState (initEditor 1 1)).historyStack ∧
    (addImage failDecode idDraw (initEditor 1 1) "nope").historyStack.getLast? =
        some (initEditor 1 1).surface ∧
    (addImage failDecode idDraw (initEditor 1 1) "nope").redoStack = [] ∧
    (addImage failDecode idDraw (initEditor 1 1) "nope").messages = (initEditor 1 1).messages :=
  C4_checkpoint_before_validation idTransform rejectAllFilters failDecode idDraw
    (initEditor 1 1) "bogus" "nope" (by decide) rfl rfl

/-- The component state before the mount effect has run: canvas element
present but no 2D context yet, stacks empty. -/
def preInitState : EditorState :=
  { context := false
    surface := blankImage 1 1 whiteRGBA
    historyStack := []
    redoStack := []
    isDrawing := false
    path := []
    messages := [] }

/-- C9 counterexample: before the context exists, every core operation
returns with the state — surface, both stacks, and the emitted-message log —
unchanged: no `NotInitialized` (nor any other) error is reported anywhere. -/
theorem C9_counterexample :
    undo preInitState = preInitState ∧
    redo preInitState = preInitState ∧
    applyFilter idTransform rejectAllFilters preInitState "grayscale(100%)" = preInitState ∧
    addImage failDecode idDraw preInitState "data" = preInitState ∧
    startDrawing preInitState ToolType.brush (0, 0) = preInitState ∧
    (undo preInitState).messages = [] := by
  decide

/-- C9 (amended): calling any core operation before the 2D context exists is
a silent no-op — the state (surface, stacks, emitted messages) is returned
unchanged and no error of any kind is reported. -/
theorem C9_uninitialized_noop
    (cssApply : String → ImageData → ImageData) (cssValid : String → Bool)
    (decode : String → Option ImageData)
    (drawAt : ImageData → ℚ × ℚ × ℚ × ℚ → ImageData → ImageData)
    (strokePath : String → Nat → List Point → ImageData → ImageData)
    (s : EditorState) (f d : String) (tool : ToolType) (bs : Nat) (bc : String) (p : Point)
    (hctx : s.context = false) :
    undo s = s ∧ redo s = s ∧ applyFilter cssApply cssValid s f = s ∧
    addImage decode drawAt s d = s ∧ startDrawing s tool p = s ∧
    draw strokePath s tool bs bc p = s ∧ stopDrawing s = s := by
  refine ⟨undo_of_not_context hctx, redo_of_not_context hctx, ?_, ?_, ?_, ?_, ?_⟩ <;>
    simp [applyFilter, addImage, startDrawing, draw, stopDrawing, hctx]

/-- Witness for C9 (amended) at the pre-mount state. -/
theorem C9_uninitialized_noop_witness :
    undo preInitState = preInitState ∧
    redo preInitState = preInitState ∧
    applyFilter idTransform rejectAllFilters preInitState "sepia(100%)" = preInitState ∧
    addImage failDecode idDraw preInitState "data" = preInitState ∧
    startDrawing preInitState ToolType.eraser (1, 1) = preInitState ∧
    draw (fun _ _ _ img => img) preInitState ToolType.eraser 10 "#06b6d4" (1, 1) =
        preInitState ∧
    stopDrawing preInitState = preInitState :=
  C9_uninitialized_noop idTransform rejectAllFilters failDecode idDraw
    (fun _ _ _ img => img) preInitState "sepia(100%)" "data" ToolType.eraser 10 "#06b6d4"
    (1, 1) rfl

/-! ## C6: centered-scaled placement geometry -/

/-- C6: for positive source dimensions, the `centeredScaled` placement of
`addImage` has drawn width at most half the surface width and drawn height at
most half the surface height, preserves the source aspect ratio exactly
(`w * ih = h * iw`), and is centered: the drawn region's midpoint is the
surface midpoint on both axes. -/
theorem C6_centeredScaled_geometry (W H iw ih : ℚ) (hiw : 0 < iw) (hih : 0 < ih) :
    (centeredScaledRect W H iw ih).2.2.1 ≤ W / 2 ∧
    (centeredScaledRect W H iw ih).2.2.2 ≤ H / 2 ∧
    (centeredScaledRect W H iw ih).2.2.1 * ih = (centeredScaledRect W H iw ih).2.2.2 * iw ∧
    2 * (centeredScaledRect W H iw ih).1 + (centeredScaledRect W H iw ih).2.2.1 = W ∧
    2 * (centeredScaledRect W H iw ih).2.1 + (centeredScaledRect W H iw ih).2.2.2 = H := by
  have h1 : iw * min (W * (1 / 2) / iw) (H * (1 / 2) / ih) ≤ W / 2 := by
    calc iw * min (W * (1 / 2) / iw) (H * (1 / 2) / ih)
        ≤ iw * (W * (1 / 2) / iw) := mul_le_mul_of_nonneg_left (min_le_left _ _) hiw.le
      _ = W / 2 := by
          field_simp
          ring
  have h2 : ih * min (W * (1 / 2) / iw) (H * (1 / 2) / ih) ≤ H / 2 := by
    calc ih * min (W * (1 / 2) / iw) (H * (1 / 2) / ih)
        ≤ ih * (H * (1 / 2) / ih) := mul_le_mul_of_nonneg_left (min_le_right _ _) hih.le
      _ = H / 2 := by
          field_simp
          ring
  refine ⟨h1, h2, ?_, ?_, ?_⟩ <;>
    · simp only [centeredScaledRect]
      ring

/-- Witness for C6: a 2×1 source image on a 10×10 surface. -/
theorem C6_centeredScaled_geometry_witness :
    (centeredScaledRect 10 10 2 1).2.2.1 ≤ 10 / 2 ∧
    (centeredScaledRect 10 10 2 1).2.2.2 ≤ 10 / 2 ∧
    (centeredScaledRect 10 10 2 1).2.2.1 * 1 = (centeredScaledRect 10 10 2 1).2.2.2 * 2 ∧
    2 * (centeredScaledRect 10 10 2 1).1 + (centeredScaledRect 10 10 2 1).2.2.1 = 10 ∧
    2 * (centeredScaledRect 10 10 2 1).2.1 + (centeredScaledRect 10 10 2 1).2.2.2 = 10 :=
  C6_centeredScaled_geometry 10 10 2 1 (by norm_num) (by norm_num)

/-! ## C7: tool gating of pointer drawing input -/

/-- C7: with the stroke engine idle, the tools select, hand, ai-add and
smart-edit ignore both stroke-start and stroke-move completely (state
bit-for-bit unchanged, hence still idle, surface and stacks untouched), and a
stroke-move received while idle is ignored for EVERY tool — it draws nothing,
changes no state, and raises no error. -/
theorem C7_tool_gating (strokePath : String → Nat → List Point → ImageData → ImageData)
    (s : EditorState) (tool toolAny : ToolType) (bs : Nat) (bc : String) (p q : Point)
    (hidle : s.isDrawing = false)
    (htool : tool = ToolType.select ∨ tool = ToolType.hand ∨ tool = ToolType.aiAdd ∨
      tool = ToolType.smartEdit) :
    startDrawing s tool p = s ∧
    draw strokePath s tool bs bc p = s ∧
    draw strokePath s toolAny bs bc q = s := by
  refine ⟨?_, ?_, ?_⟩
  · rcases htool with h | h | h | h <;> subst h <;> simp [startDrawing]
  · simp [draw, hidle]
  · simp [draw, hidle]

/-- Witness for C7: the freshly mounted 1×1 editor (idle), the select tool,
and the brush as the arbitrary second tool. -/
theorem C7_tool_gating_witness :
    startDrawing (initEditor 1 1) ToolType.select (3, 4) = initEditor 1 1 ∧
    draw (fun _ _ _ img => img) (initEditor 1 1) ToolType.select 10 "#06b6d4" (3, 4) =
        initEditor 1 1 ∧
    draw (fun _ _ _ img => img) (initEditor 1 1) ToolType.brush 10 "#06b6d4" (5, 6) =
        initEditor 1 1 :=
  C7_tool_gating (fun _ _ _ img => img) (initEditor 1 1) ToolType.select ToolType.brush
    10 "#06b6d4" (3, 4) (5, 6) (by decide) (Or.inl rfl)

/-! ## C8 and C10: the stale-closure mount effect -/

/-- The post-mount editor holding a single red pixel, context live. -/
def redPixelState : EditorState :=
  { context := true
    surface := ⟨1, 1, [(255, 0, 0, 255)]⟩
    historyStack := []
    redoStack := []
    isDrawing := false
    path := []
    messages := [] }

/-- C8 counterexample: a resize event to offset size 2×2 on a 1×1 red surface
leaves the editor state completely unchanged — the surface keeps its old 1×1
dimensions and no pixel of the claimed new region equals the opaque-white
background fill — because the registered listener's captured `context` is
permanently null. -/
theorem C8_counterexample :
    handleResize mountCapturedContext 2 2 redPixelState = redPixelState ∧
    (handleResize mountCapturedContext 2 2 redPixelState).surface.width ≠ 2 ∧
    getPx (handleResize mountCapturedContext 2 2 redPixelState).surface 1 1 ≠ whiteRGBA := by
  decide

/-- C8 (amended): every resize event is a complete no-op on the editor state:
the `resize` listener registered by the mount effect closes over the
`context` React state of the first render, which is still null, so its guard
fails forever — the canvas bitmap is neither reallocated nor copied, and in
particular all prior pixels survive unchanged. -/
theorem C8_resize_noop (s : EditorState) (offsetW offsetH : Nat) :
    handleResize mountCapturedContext offsetW offsetH s = s :=
  handleResize_mount_noop offsetW offsetH s

/-- C10 (the code evaluated at the failing input): after the mount effect, the
undo stack is EMPTY and the redo stack is empty — the effect's "initial save"
`saveState()` call is a no-op because the `saveState` closure it invokes
captured the still-null `context` state — so an `undo` issued before any user
edit is a no-op instead of restoring the blank white canvas. -/
theorem C10_init_pushes_no_checkpoint (w h : Nat) :
    (initEditor w h).historyStack = [] ∧
    (initEditor w h).redoStack = [] ∧
    undo (initEditor w h) = initEditor w h := by
  refine ⟨?_, ?_, ?_⟩
  · rw [initEditor_eq]
  · rw [initEditor_eq]
  · apply undo_of_empty
    rw [initEditor_eq]

end Praziella
